import Mathlib

/-!
Verification development for the Iran market-intelligence bot
(src/main.py, src/state.py, src/config.py).

The detector functions, the cooldown state machine and the persistence
layer of src/main.py are shallowly embedded below.  Python floats are
modelled as rationals, Python dicts as insertion-ordered association
lists, datetimes as rationals (the ISO strings the code compares are
ordered chronologically), and difflib.SequenceMatcher.ratio — a Python
standard-library routine external to this repository — is abstracted as
an arbitrary function argument called similarity.
-/

namespace IranBot

/-! ## Python string primitives -/

/-- Python str.lower, modelled characterwise on the underlying char list. -/
def pyLower (s : String) : String := String.mk (s.data.map Char.toLower)

/-- Whitespace trimming of a char list on both ends (Python str.strip). -/
def stripWsList (l : List Char) : List Char :=
  ((l.dropWhile Char.isWhitespace).reverse.dropWhile Char.isWhitespace).reverse

/-- Python str.strip with no argument: drop whitespace from both ends. -/
def pyStrip (s : String) : String := String.mk (stripWsList s.data)

/-- Substring search on char lists, used to model the Python in operator. -/
def containsSub (needle : List Char) : List Char → Bool
  | [] => needle.isEmpty
  | c :: t => needle.isPrefixOf (c :: t) || containsSub needle t

/-- Python needle in hay substring test. -/
def strContains (hay needle : String) : Bool := containsSub needle.data hay.data

/-! ## Python round, modelled on rationals -/

/-- Floor of a rational, via flooring integer division. -/
def ratFloor (q : ℚ) : ℤ := q.num.fdiv (q.den : ℤ)

/-- Round to the nearest integer, ties to even (Python banker rounding). -/
def roundHalfEven (q : ℚ) : ℤ :=
  let f := ratFloor q
  let r := q - (f : ℚ)
  if r < 1/2 then f
  else if 1/2 < r then f + 1
  else if f % 2 = 0 then f else f + 1

/-- Python round(x, 1). -/
def pyRound1 (q : ℚ) : ℚ := ((roundHalfEven (q * 10) : ℚ)) / 10

/-- Python round(x, 2). -/
def pyRound2 (q : ℚ) : ℚ := ((roundHalfEven (q * 100) : ℚ)) / 100

/-! ## Data model

A market dict as produced by fetch_polymarket_iran / fetch_kalshi_iran
(src/main.py:486-652).  Polymarket entries carry an event_title and no
subtitle; Kalshi entries carry a subtitle and event_title equal to the
title.  An absent optional field is the empty string, matching the
falsy-string checks in the Python code. -/

structure Market where
  id : String
  title : String
  event_title : String
  subtitle : String
  yes_price : ℚ
  url : String
deriving DecidableEq

/-- One element of a price_history series (src/main.py:941-944). -/
structure PricePoint where
  price : ℚ
  ts : ℚ
deriving DecidableEq

/-- The price_history dict: market id to list of price points. -/
abbrev PriceHistory := List (String × List PricePoint)

/-- Python price_history.get(mid, []) (src/main.py:795 and 855). -/
def lookupHist (ph : PriceHistory) (mid : String) : List PricePoint :=
  match ph.find? (fun p => decide (p.1 = mid)) with
  | some p => p.2
  | none => []

/-! ## Configuration constants (src/main.py:52-99) -/

def ARBITRAGE_THRESHOLD_PCT : ℚ := 5

def BIG_MOVE_THRESHOLD_PCT : ℚ := 10

def CORRELATION_MOVE_PCT : ℚ := 10

def CORRELATION_HINTS : List (String × String) :=
  [("supreme leader", "regime"),
   ("supreme leader", "succession"),
   ("nuclear", "sanctions"),
   ("war", "strike"),
   ("israel", "attack"),
   ("regime", "revolution"),
   ("irgc", "regime"),
   ("mojtaba", "supreme leader")]

/-! ## Arbitrage detector (src/main.py:729-780) -/

/-- The normalization find_arbitrage_opportunities applies to the primary
titles before scoring: title.lower().strip() (src/main.py:746-747). -/
def arbNormTitle (s : String) : String := pyStrip (pyLower s)

/-- The similarity score of one Polymarket/Kalshi pair: the ratio of the
normalized titles, maxed with the subtitle and event-title alternatives
when those fields are nonempty (src/main.py:745-756).  Note the alternate
fields are only lowercased, not stripped, exactly as in the source. -/
def marketScore (similarity : String → String → ℚ) (pm km : Market) : ℚ :=
  let pm_norm := arbNormTitle pm.title
  let km_norm := arbNormTitle km.title
  let score := similarity pm_norm km_norm
  let score := if km.subtitle = "" then score
               else max score (similarity pm_norm (pyLower km.subtitle))
  if pm.event_title = "" then score
  else max score (similarity (pyLower pm.event_title) km_norm)

/-- The inner loop of find_arbitrage_opportunities: scan the Kalshi list,
skipping already consumed ids, keeping the strictly best-scoring market
(src/main.py:738-760). -/
def bestKalshiMatch (similarity : String → String → ℚ) (pm : Market)
    (kalshi : List Market) (used : List String) : Option Market × ℚ :=
  kalshi.foldl
    (fun acc km =>
      if km.id ∈ used then acc
      else
        let score := marketScore similarity pm km
        if acc.2 < score then (some km, score) else acc)
    (none, 0)

/-- A gap candidate as built at src/main.py:769-777. -/
structure ArbOpp where
  name : String
  poly_price : ℚ
  kalshi_price : ℚ
  gap_pct : ℚ
  poly_url : String
  kalshi_url : String
  match_score : ℚ
deriving DecidableEq

/-- The gap of a matched pair, in percentage points (src/main.py:764-766). -/
def arbGap (pm km : Market) : ℚ := |pm.yes_price * 100 - km.yes_price * 100|

def mkArbOpp (pm km : Market) (score : ℚ) : ArbOpp :=
  { name := pm.title
  , poly_price := pyRound1 (pm.yes_price * 100)
  , kalshi_price := pyRound1 (km.yes_price * 100)
  , gap_pct := pyRound1 (arbGap pm km)
  , poly_url := pm.url
  , kalshi_url := km.url
  , match_score := pyRound2 score }

/-- One iteration of the outer loop of find_arbitrage_opportunities
(src/main.py:737-777): find the best unconsumed Kalshi market; if the best
score reaches 0.45 consume it, and emit a candidate when the gap reaches
the threshold. -/
def arbStep (similarity : String → String → ℚ) (kalshi : List Market) (t : ℚ)
    (acc : List String × List ArbOpp) (pm : Market) : List String × List ArbOpp :=
  match bestKalshiMatch similarity pm kalshi acc.1 with
  | (some bm, bs) =>
    if 45/100 ≤ bs then
      if t ≤ arbGap pm bm then (bm.id :: acc.1, acc.2 ++ [mkArbOpp pm bm bs])
      else (bm.id :: acc.1, acc.2)
    else acc
  | (none, _) => acc

/-- find_arbitrage_opportunities (src/main.py:729-780): greedy matching over
the Polymarket list, then sort descending by the gap_pct field.  The Python
stable sort is modelled by insertionSort; every property proved below is
independent of the order of candidates with equal gap_pct. -/
def find_arbitrage_opportunities (similarity : String → String → ℚ)
    (poly kalshi : List Market) (t : ℚ) : List ArbOpp :=
  ((poly.foldl (arbStep similarity kalshi t) ([], [])).2).insertionSort
    (fun a b => b.gap_pct ≤ a.gap_pct)

/-- The matching phase of find_arbitrage_opportunities in isolation: the
same greedy loop, recording every accepted pairing (best unconsumed Kalshi
market with score at least 0.45) whether or not its gap reaches the
threshold. -/
def pairStep (similarity : String → String → ℚ) (kalshi : List Market)
    (acc : List String × List (Market × Market × ℚ)) (pm : Market) :
    List String × List (Market × Market × ℚ) :=
  match bestKalshiMatch similarity pm kalshi acc.1 with
  | (some bm, bs) =>
    if 45/100 ≤ bs then (bm.id :: acc.1, acc.2 ++ [(pm, bm, bs)]) else acc
  | (none, _) => acc

def matchedPairs (similarity : String → String → ℚ)
    (poly kalshi : List Market) : List (Market × Market × ℚ) :=
  (poly.foldl (pairStep similarity kalshi) ([], [])).2

/-- Gap-candidate emission for an accepted pair, per the spec of the Gap
Detector: emit exactly when the gap reaches the threshold. -/
def emitGapCandidate (t : ℚ) (p : Market × Market × ℚ) : Option ArbOpp :=
  if t ≤ arbGap p.1 p.2.1 then some (mkArbOpp p.1 p.2.1 p.2.2) else none

/-! ## Velocity (big-move) detector (src/main.py:846-871) -/

/-- A move candidate as built at src/main.py:863-868. -/
structure MoveCandidate where
  market : Market
  old_price : ℚ
  new_price : ℚ
  delta : ℚ
deriving DecidableEq

/-- One iteration of the loop of find_big_moves (src/main.py:852-868):
markets with empty history are skipped; otherwise delta is measured from
the first retained history entry, and a candidate is emitted when the
absolute delta reaches the threshold. -/
def moveStep (ph : PriceHistory) (t : ℚ)
    (acc : List MoveCandidate) (m : Market) : List MoveCandidate :=
  match lookupHist ph m.id with
  | [] => acc
  | h :: _ =>
    let current := m.yes_price * 100
    let oldest := h.price * 100
    let delta := current - oldest
    if t ≤ |delta| then
      acc ++ [⟨m, pyRound1 oldest, pyRound1 current, pyRound1 delta⟩]
    else acc

/-- find_big_moves (src/main.py:846-871), ending in a sort descending by
the absolute delta field. -/
def find_big_moves (all_markets : List Market) (ph : PriceHistory) (t : ℚ) :
    List MoveCandidate :=
  (all_markets.foldl (moveStep ph t) []).insertionSort
    (fun a b => |b.delta| ≤ |a.delta|)

/-- Move-candidate emission for one market, per the spec of the Velocity
Detector: skip a market with no retained history; otherwise emit exactly
when the absolute delta from the oldest retained point reaches the
threshold. -/
def emitMoveCandidate (ph : PriceHistory) (t : ℚ) (m : Market) :
    Option MoveCandidate :=
  match lookupHist ph m.id with
  | [] => none
  | h :: _ =>
    if t ≤ |m.yes_price * 100 - h.price * 100| then
      some ⟨m, pyRound1 (h.price * 100), pyRound1 (m.yes_price * 100),
            pyRound1 (m.yes_price * 100 - h.price * 100)⟩
    else none

/-! ## Correlation-divergence detector (src/main.py:783-843) -/

/-- A moves-dict entry {market, current, move} (src/main.py:802). -/
structure CorrEntry where
  market : Market
  current : ℚ
  move : ℚ
deriving DecidableEq

/-- An anomaly record as built at src/main.py:833-840. -/
structure CorrAnomaly where
  mover : CorrEntry
  laggard : CorrEntry
  mover_market : Market
  laggard_market : Market
deriving DecidableEq

def mkAnomaly (a b : CorrEntry) : CorrAnomaly := ⟨a, b, a.market, b.market⟩

/-- Python dict assignment d[k] = v on an insertion-ordered association
list: overwrite in place when the key exists, append otherwise. -/
def dictInsert {β : Type} (k : String) (v : β) (d : List (String × β)) :
    List (String × β) :=
  if d.any (fun p => decide (p.1 = k)) then
    d.map (fun p => if p.1 = k then (k, v) else p)
  else d ++ [(k, v)]

/-- One iteration of the moves-dict loop (src/main.py:792-802): a market
with no history is skipped, otherwise its entry is stored under its id. -/
def corrMoveStep (ph : PriceHistory) (d : List (String × CorrEntry))
    (m : Market) : List (String × CorrEntry) :=
  match lookupHist ph m.id with
  | [] => d
  | h :: _ =>
    dictInsert m.id ⟨m, m.yes_price * 100, m.yes_price * 100 - h.price * 100⟩ d

/-- The moves dict of find_correlation_anomalies (src/main.py:791-802):
one entry per market with nonempty history, keyed by market id. -/
def corrMovesDict (all_markets : List Market) (ph : PriceHistory) :
    List (String × CorrEntry) :=
  all_markets.foldl (corrMoveStep ph) []

/-- The keyword-hint test of src/main.py:812-817: some hint pair has one
keyword contained in each (lowercased) title, in either order. -/
def hintCorrelated (title_a title_b : String) : Bool :=
  CORRELATION_HINTS.any
    (fun kw =>
      (strContains title_a kw.1 && strContains title_b kw.2) ||
      (strContains title_a kw.2 && strContains title_b kw.1))

/-- The body of the pair loop of find_correlation_anomalies
(src/main.py:808-841), returning the anomalies this pair contributes. -/
def corrPairCheck (similarity : String → String → ℚ) (t : ℚ)
    (a b : CorrEntry) : List CorrAnomaly :=
  let title_a := pyLower a.market.title
  let title_b := pyLower b.market.title
  let is_correlated :=
    hintCorrelated title_a title_b || decide (4/10 < similarity title_a title_b)
  if is_correlated = false then []
  else if t ≤ |a.move| ∧ ¬ t ≤ |b.move| ∧ |b.move| < t * (3/10) then
    [mkAnomaly a b]
  else if t ≤ |b.move| ∧ ¬ t ≤ |a.move| ∧ |a.move| < t * (3/10) then
    [mkAnomaly b a]
  else []

/-- The ordered pairs visited by for i, a in enumerate(lst) with inner
loop over lst[i+1:] (src/main.py:806-807). -/
def ordPairs {α : Type} : List α → List (α × α)
  | [] => []
  | a :: rest => (rest.map (fun b => (a, b))) ++ ordPairs rest

/-- find_correlation_anomalies (src/main.py:783-843). -/
def find_correlation_anomalies (similarity : String → String → ℚ)
    (all_markets : List Market) (ph : PriceHistory) (t : ℚ) :
    List CorrAnomaly :=
  (ordPairs ((corrMovesDict all_markets ph).map (fun p => p.2))).flatMap
    (fun ab => corrPairCheck similarity t ab.1 ab.2)

/-- The per-market delta entries as the spec describes them: one entry for
every market with at least one retained history point, delta measured from
the oldest retained point, in order of appearance. -/
def corrEntriesSpec (all_markets : List Market) (ph : PriceHistory) :
    List CorrEntry :=
  all_markets.filterMap
    (fun m =>
      match lookupHist ph m.id with
      | [] => none
      | h :: _ => some ⟨m, m.yes_price * 100, m.yes_price * 100 - h.price * 100⟩)

/-- Correlatedness as the claim words it: some keyword pair has one member
in each lowercased title, order-independently, or the title similarity
exceeds 0.4. -/
def claimCorrelated (similarity : String → String → ℚ) (a b : CorrEntry) : Prop :=
  (∃ kw ∈ CORRELATION_HINTS,
    (strContains (pyLower a.market.title) kw.1 = true ∧
     strContains (pyLower b.market.title) kw.2 = true) ∨
    (strContains (pyLower a.market.title) kw.2 = true ∧
     strContains (pyLower b.market.title) kw.1 = true)) ∨
  4/10 < similarity (pyLower a.market.title) (pyLower b.market.title)

instance (similarity : String → String → ℚ) (a b : CorrEntry) :
    Decidable (claimCorrelated similarity a b) := by
  unfold claimCorrelated; infer_instance

/-- Anomaly emission for one correlated pair as the claim words it: an
anomaly exactly when one side reaches the move threshold while the other
stays strictly below 0.3 times the threshold; the moving side is named
mover, the other laggard. -/
def claimAnomalies (similarity : String → String → ℚ) (t : ℚ)
    (a b : CorrEntry) : List CorrAnomaly :=
  if claimCorrelated similarity a b then
    if t ≤ |a.move| ∧ ¬ t ≤ |b.move| ∧ |b.move| < t * (3/10) then [mkAnomaly a b]
    else if t ≤ |b.move| ∧ ¬ t ≤ |a.move| ∧ |a.move| < t * (3/10) then
      [mkAnomaly b a]
    else []
  else []

/-! ## Alert state machine (src/main.py:878-984)

Timestamps are rationals, measured in minutes; the three cooldown dicts
are insertion-ordered association lists.  The Python except branch for an
unparseable stored timestamp has no counterpart here because every stored
timestamp in the model is already a number. -/

structure BotStateM where
  price_history : PriceHistory
  seen_news : List String
  sent_arb_alerts : List (String × ℚ)
  sent_corr_alerts : List (String × ℚ)
  sent_move_alerts : List (String × ℚ)
  last_news_check : Option ℚ
  scan_count : ℕ
  knowledge_base : String
  sent_topics : List String
deriving DecidableEq

/-- Python dict .get(key) on a timestamp dict. -/
def lookupTs (d : List (String × ℚ)) (key : String) : Option ℚ :=
  (d.find? (fun p => decide (p.1 = key))).map (fun p => p.2)

/-- State.can_alert_arb (src/main.py:946-955). -/
def can_alert_arb (st : BotStateM) (key : String) (now cooldown_minutes : ℚ) :
    Bool :=
  match lookupTs st.sent_arb_alerts key with
  | none => true
  | some last => decide (cooldown_minutes < now - last)

/-- State.mark_arb_alert (src/main.py:957-958). -/
def mark_arb_alert (st : BotStateM) (key : String) (now : ℚ) : BotStateM :=
  { st with sent_arb_alerts := dictInsert key now st.sent_arb_alerts }

/-- State.can_alert_corr (src/main.py:960-968). -/
def can_alert_corr (st : BotStateM) (key : String) (now cooldown_minutes : ℚ) :
    Bool :=
  match lookupTs st.sent_corr_alerts key with
  | none => true
  | some last => decide (cooldown_minutes < now - last)

/-- State.mark_corr_alert (src/main.py:970-971). -/
def mark_corr_alert (st : BotStateM) (key : String) (now : ℚ) : BotStateM :=
  { st with sent_corr_alerts := dictInsert key now st.sent_corr_alerts }

/-- State.can_alert_move (src/main.py:973-981). -/
def can_alert_move (st : BotStateM) (key : String) (now cooldown_minutes : ℚ) :
    Bool :=
  match lookupTs st.sent_move_alerts key with
  | none => true
  | some last => decide (cooldown_minutes < now - last)

/-- State.mark_move_alert (src/main.py:983-984). -/
def mark_move_alert (st : BotStateM) (key : String) (now : ℚ) : BotStateM :=
  { st with sent_move_alerts := dictInsert key now st.sent_move_alerts }

/-! ## Alert keys as derived in market_scan (src/main.py:1240-1295) -/

/-- market_scan keys an arbitrage alert by the first 30 characters of the
candidate name, which is the Polymarket title (src/main.py:1243). -/
def market_scan_arb_key (opp : ArbOpp) : String := String.mk (opp.name.data.take 30)

/-- market_scan keys a correlation alert by mover id, then laggard id
(src/main.py:1282). -/
def market_scan_corr_key (mover_id laggard_id : String) : String :=
  mover_id ++ ":" ++ laggard_id

/-- market_scan keys a move alert by the market id (src/main.py:1266). -/
def market_scan_move_key (mid : String) : String := mid

/-! ## State.save (src/main.py:911-935)

The method builds a trimmed copy of the history and writes the document;
it assigns none of the attributes of self.  State_save returns the state
as the method leaves it together with the written document. -/

def RETENTION_HOURS : ℚ := 25

def HISTORY_CAP : ℕ := 500

/-- Python l[-n:]. -/
def takeLastN {α : Type} (n : ℕ) (l : List α) : List α := l.drop (l.length - n)

/-- The trimmed history written by State.save (src/main.py:915-920): keep
entries newer than now minus 25 hours, cap at the most recent 500 per
market, drop markets left with no entries. -/
def trimHistory (now : ℚ) (h : PriceHistory) : PriceHistory :=
  h.filterMap
    (fun p =>
      let trimmed := p.2.filter (fun e => decide (now - RETENTION_HOURS < e.ts))
      if trimmed.isEmpty then none else some (p.1, takeLastN HISTORY_CAP trimmed))

/-- The JSON document State.save writes (src/main.py:922-933). -/
structure SavedDoc where
  price_history : PriceHistory
  seen_news : List String
  sent_arb_alerts : List (String × ℚ)
  sent_corr_alerts : List (String × ℚ)
  sent_move_alerts : List (String × ℚ)
  last_news_check : Option ℚ
  scan_count : ℕ
  knowledge_base : String
  sent_topics : List String
deriving DecidableEq

/-- State.save: the in-memory state after the call, and the document
written to disk. -/
def State_save (st : BotStateM) (now : ℚ) : BotStateM × SavedDoc :=
  (st,
   { price_history := trimHistory now st.price_history
   , seen_news := takeLastN 1000 st.seen_news
   , sent_arb_alerts := st.sent_arb_alerts
   , sent_corr_alerts := st.sent_corr_alerts
   , sent_move_alerts := st.sent_move_alerts
   , last_news_check := st.last_news_check
   , scan_count := st.scan_count
   , knowledge_base := st.knowledge_base
   , sent_topics := takeLastN 50 st.sent_topics })

/-! ## File-system model for the save path (src/main.py:922-933 and
src/state.py:44-46)

Both save methods run open(STATE_FILE, "w") followed by json.dump: a
truncating open of the target file, then a sequence of write calls.  The
model records the visible content of each path after each primitive
operation; a crash after k operations leaves the file system produced by
the first k operations. -/

inductive FsPath where
  | target
  | temp
deriving DecidableEq

def FsState : Type := FsPath → Option String

inductive FsOp where
  | truncOpen (p : FsPath)
  | writeChunk (p : FsPath) (data : String)
  | rename (src dst : FsPath)

def fsStep (fs : FsState) : FsOp → FsState
  | .truncOpen p => fun q => if q = p then some "" else fs q
  | .writeChunk p d => fun q => if q = p then some (((fs p).getD "") ++ d) else fs q
  | .rename src dst =>
      fun q => if q = dst then fs src else if q = src then none else fs q

def runFs (fs : FsState) (ops : List FsOp) : FsState := ops.foldl fsStep fs

/-- The file system visible if the process dies after the first k
operations of a save. -/
def crashFs (fs : FsState) (ops : List FsOp) (k : ℕ) : FsState :=
  runFs fs (ops.take k)

/-- The operations State.save and BotState.save issue against the state
file: a truncating open of the target itself, then the serialized document
in chunks.  No temporary file and no rename appear in the source. -/
def State_save_write_ops (chunks : List String) : List FsOp :=
  FsOp.truncOpen .target :: chunks.map (fun c => FsOp.writeChunk .target c)

def joinChunks (chunks : List String) : String :=
  chunks.foldl (fun a c => a ++ c) ""

/-! ## Loader models (src/main.py:891-909 and src/state.py:29-39)

JSON documents and the dynamically-typed values Python passes around. -/

inductive Json where
  | null
  | jbool (b : Bool)
  | num (q : ℚ)
  | str (s : String)
  | arr (l : List Json)
  | obj (l : List (String × Json))

/-- What the loader finds on disk: no file, an unreadable file (OSError on
open or read), a file that is not valid JSON, or a parsed document. -/
inductive FileRead where
  | noFile
  | osError
  | badJson
  | content (j : Json)

/-- The exception classes the two loaders distinguish. -/
inductive PyError where
  | jsonDecode
  | osErr
  | typeErr
  | attrErr

/-- Lookup in a parsed JSON object, as dict .get. -/
def objLookup (kvs : List (String × Json)) (k : String) : Option Json :=
  (kvs.find? (fun p => decide (p.1 = k))).map (fun p => p.2)

/-- The attributes of main.py State, dynamically typed exactly as the
Python object is: _load assigns whatever values the parsed object holds,
with no validation (src/main.py:896-904). -/
structure RawState where
  price_history : Json
  seen_news : Json
  sent_arb_alerts : Json
  sent_corr_alerts : Json
  sent_move_alerts : Json
  last_news_check : Json
  scan_count : Json
  knowledge_base : Json
  sent_topics : Json

/-- The initial attribute values set by State.__init__
(src/main.py:880-888). -/
def defaultRawState : RawState :=
  ⟨.obj [], .arr [], .obj [], .obj [], .obj [], .null, .num 0, .str "", .arr []⟩

/-- The field assignments of State._load from a parsed object, each via
s.get with the default of the corresponding __init__ value
(src/main.py:896-904). -/
def rawStateOfObj (kvs : List (String × Json)) : RawState :=
  ⟨(objLookup kvs "price_history").getD (.obj [])
  , (objLookup kvs "seen_news").getD (.arr [])
  , (objLookup kvs "sent_arb_alerts").getD (.obj [])
  , (objLookup kvs "sent_corr_alerts").getD (.obj [])
  , (objLookup kvs "sent_move_alerts").getD (.obj [])
  , (objLookup kvs "last_news_check").getD .null
  , (objLookup kvs "scan_count").getD (.num 0)
  , (objLookup kvs "knowledge_base").getD (.str "")
  , (objLookup kvs "sent_topics").getD (.arr [])⟩

/-- The try body of State._load (src/main.py:892-907).  A missing file
skips the body; an OSError or a JSON decode error raises; s.get on a
non-dict document raises AttributeError before any field is assigned. -/
def State_load_core : FileRead → Except PyError RawState
  | .noFile => .ok defaultRawState
  | .osError => .error .osErr
  | .badJson => .error .jsonDecode
  | .content (.obj kvs) => .ok (rawStateOfObj kvs)
  | .content _ => .error .attrErr

/-- State._load (src/main.py:891-909): the bare except Exception catches
every error, so the attributes keep their __init__ defaults. -/
def State_load (r : FileRead) : RawState :=
  match State_load_core r with
  | .ok s => s
  | .error _ => defaultRawState

/-! src/state.py BotState._load.  Its _state attribute is one Python dict,
updated in place by dict.update(saved), and its except clause catches only
json.JSONDecodeError and OSError.  Dict keys coming from dict.update may
be any hashable value, so the model keys the dict by the hashable subset
of JSON values. -/

inductive JKey where
  | knull
  | kbool (b : Bool)
  | knum (q : ℚ)
  | kstr (s : String)
deriving DecidableEq

/-- The initial _state dict of BotState.__init__ (src/state.py:19-26). -/
def defaultBotDict : List (JKey × Json) :=
  [(.kstr "previous_prices", .obj [])
  , (.kstr "market_info", .obj [])
  , (.kstr "seen_rss_guids", .arr [])
  , (.kstr "last_run", .null)
  , (.kstr "run_count", .num 0)
  , (.kstr "last_heartbeat", .null)]

/-- Python dict assignment on a JKey-keyed dict. -/
def keyedDictInsert (k : JKey) (v : Json) (d : List (JKey × Json)) :
    List (JKey × Json) :=
  if d.any (fun p => decide (p.1 = k)) then
    d.map (fun p => if p.1 = k then (k, v) else p)
  else d ++ [(k, v)]

def keyedDictLookup (d : List (JKey × Json)) (k : JKey) : Option Json :=
  (d.find? (fun p => decide (p.1 = k))).map (fun p => p.2)

/-- The hashable JSON values, usable as dict keys; a list or dict key
raises TypeError. -/
def jsonHashKey : Json → Option JKey
  | .null => some .knull
  | .jbool b => some (.kbool b)
  | .num q => some (.knum q)
  | .str s => some (.kstr s)
  | .arr _ => none
  | .obj _ => none

/-- One element of a sequence passed to dict.update: it must present
exactly two items — a two-element array, a two-character string, or a
two-key dict (iterating a dict yields its keys) — with a hashable first
item; anything else raises. -/
def updatePairOfElem : Json → Option (JKey × Json)
  | .arr [k, v] => (jsonHashKey k).map (fun kk => (kk, v))
  | .str s =>
    match s.data with
    | [c1, c2] => some (.kstr (String.mk [c1]), .str (String.mk [c2]))
    | _ => none
  | .obj kvs =>
    match kvs with
    | [(k1, _), (k2, _)] => some (.kstr k1, .str k2)
    | _ => none
  | _ => none

def updateElems : List Json → Option (List (JKey × Json))
  | [] => some []
  | e :: t =>
    match updatePairOfElem e, updateElems t with
    | some p, some ps => some (p :: ps)
    | _, _ => none

/-- Python len() succeeds on strings, lists and dicts only; the loader
calls len on the previous_prices slot while logging (src/state.py:36-37). -/
def jsonSized : Json → Bool
  | .str _ => true
  | .arr _ => true
  | .obj _ => true
  | _ => false

def botDictAfterUpdate (prs : List (JKey × Json)) : List (JKey × Json) :=
  prs.foldl (fun d p => keyedDictInsert p.1 p.2 d) defaultBotDict

/-- The logging line after the update reads run_count (any value prints)
and takes len of previous_prices, raising TypeError on an unsized value. -/
def botLoadFinish (st : List (JKey × Json)) : Except PyError (List (JKey × Json)) :=
  if jsonSized ((keyedDictLookup st (.kstr "previous_prices")).getD .null) then
    .ok st
  else .error .typeErr

/-- The try body of BotState._load (src/state.py:31-37): json.load, then
self._state.update(saved), then the log line.  update accepts a dict, an
empty string or a sequence of two-item elements; a bare number, bool or
None is not iterable and a malformed sequence element raises. -/
def BotState_load_core : FileRead → Except PyError (List (JKey × Json))
  | .noFile => .ok defaultBotDict
  | .osError => .error .osErr
  | .badJson => .error .jsonDecode
  | .content (.obj kvs) =>
    botLoadFinish (botDictAfterUpdate (kvs.map (fun p => (JKey.kstr p.1, p.2))))
  | .content (.arr l) =>
    match updateElems l with
    | some prs => botLoadFinish (botDictAfterUpdate prs)
    | none => .error .typeErr
  | .content (.str s) =>
    if s.data.isEmpty then botLoadFinish defaultBotDict else .error .typeErr
  | .content _ => .error .typeErr

/-- BotState._load (src/state.py:29-39): only JSONDecodeError and OSError
are caught (falling back to the defaults); every other exception
propagates out of the loader, modelled as an error result. -/
def BotState_load (r : FileRead) : Except Unit (List (JKey × Json)) :=
  match BotState_load_core r with
  | .ok s => .ok s
  | .error .jsonDecode => .ok defaultBotDict
  | .error .osErr => .ok defaultBotDict
  | .error _ => .error ()

/-! ## The normalizer described by the spec (section 4.1)

Modelled from the spec: lowercase; strip a leading interrogative
auxiliary plus the whitespace after it; strip one trailing question mark;
collapse internal whitespace runs to a single space.  No function in the
source implements these rules; this definition exists to compare the
claimed normalization with the one the code applies. -/

def AUX_WORDS : List String := ["will", "is", "does", "has", "can"]

/-- Strip one leading auxiliary followed by whitespace, when present. -/
def auxStripped (l : List Char) : Option (List Char) :=
  AUX_WORDS.findSome?
    (fun w =>
      if w.data.isPrefixOf l &&
         ((l.drop w.data.length).head?.getD 'x').isWhitespace then
        some ((l.drop w.data.length).dropWhile Char.isWhitespace)
      else none)

/-- Strip one trailing question mark, when present. -/
def stripTrailingQm (l : List Char) : List Char :=
  match l.reverse with
  | '?' :: r => r.reverse
  | _ => l

/-- Collapse whitespace runs to a single space; the flag records whether
the previous character was whitespace. -/
def collapseWsAux : Bool → List Char → List Char
  | _, [] => []
  | prevWs, c :: cs =>
    if c.isWhitespace then
      if prevWs then collapseWsAux true cs else ' ' :: collapseWsAux true cs
    else c :: collapseWsAux false cs

def specNormalize (s : String) : String :=
  let l := s.data.map Char.toLower
  let l1 := (auxStripped l).getD l
  String.mk (collapseWsAux false (stripTrailingQm l1))

/-! ## Helper lemmas: the arbitrage fold -/

lemma bestKalshiMatch_foldl_inv (similarity : String → String → ℚ)
    (pm : Market) (used : List String) :
    ∀ (l : List Market) (acc : Option Market × ℚ),
      (∀ m, acc.1 = some m → m.id ∉ used) →
      ∀ bm bs,
        l.foldl
          (fun acc km =>
            if km.id ∈ used then acc
            else
              let score := marketScore similarity pm km
              if acc.2 < score then (some km, score) else acc)
          acc = (some bm, bs) →
        bm.id ∉ used := by
  intro l
  induction l with
  | nil =>
    intro acc hacc bm bs hfold
    simp only [List.foldl_nil] at hfold
    exact hacc bm (by rw [hfold])
  | cons km t ih =>
    intro acc hacc bm bs hfold
    refine ih _ ?_ bm bs hfold
    by_cases hused : km.id ∈ used
    · simpa [hused] using hacc
    · by_cases hsc : acc.2 < marketScore similarity pm km
      · intro m hm
        simp only [if_neg hused, if_pos hsc] at hm
        cases hm
        exact hused
      · simpa [hused, hsc] using hacc

lemma bestKalshiMatch_not_used (similarity : String → String → ℚ)
    (pm : Market) (kalshi : List Market) (used : List String)
    (bm : Market) (bs : ℚ)
    (h : bestKalshiMatch similarity pm kalshi used = (some bm, bs)) :
    bm.id ∉ used := by
  refine bestKalshiMatch_foldl_inv similarity pm used kalshi (none, 0) ?_ bm bs h
  intro m hm
  simp at hm

/-- The candidate accumulator of find_arbitrage_opportunities is the
filterMap of the pair accumulator of the matching phase, stepwise. -/
lemma arb_fold_lockstep (similarity : String → String → ℚ)
    (kalshi : List Market) (t : ℚ) :
    ∀ (poly : List Market) (used : List String)
      (pairs : List (Market × Market × ℚ)),
      poly.foldl (arbStep similarity kalshi t)
          (used, pairs.filterMap (emitGapCandidate t))
        = ((poly.foldl (pairStep similarity kalshi) (used, pairs)).1,
           ((poly.foldl (pairStep similarity kalshi) (used, pairs)).2).filterMap
             (emitGapCandidate t)) := by
  intro poly
  induction poly with
  | nil => intro used pairs; simp
  | cons pm rest ih =>
    intro used pairs
    simp only [List.foldl_cons]
    have hstep :
        arbStep similarity kalshi t (used, pairs.filterMap (emitGapCandidate t)) pm
          = ((pairStep similarity kalshi (used, pairs) pm).1,
             ((pairStep similarity kalshi (used, pairs) pm).2).filterMap
               (emitGapCandidate t)) := by
      unfold arbStep pairStep
      cases hbest : bestKalshiMatch similarity pm kalshi used with
      | mk bmo bs =>
        cases bmo with
        | none => simp
        | some bm =>
          by_cases hb : 45/100 ≤ bs
          · by_cases hg : t ≤ arbGap pm bm
            · simp [hb, hg, List.filterMap_append, emitGapCandidate]
            · simp [hb, hg, List.filterMap_append, emitGapCandidate]
          · simp [hb]
    rw [hstep]
    exact ih _ _

lemma find_arb_unsorted (similarity : String → String → ℚ)
    (poly kalshi : List Market) (t : ℚ) :
    (poly.foldl (arbStep similarity kalshi t) ([], [])).2
      = (matchedPairs similarity poly kalshi).filterMap (emitGapCandidate t) := by
  have h := arb_fold_lockstep similarity kalshi t poly [] []
  simp only [List.filterMap_nil] at h
  rw [h]
  rfl

/-- Invariant of the matching phase: accepted Kalshi ids are distinct and
all recorded in the used set. -/
lemma pair_fold_nodup (similarity : String → String → ℚ) (kalshi : List Market) :
    ∀ (poly : List Market) (used : List String)
      (pairs : List (Market × Market × ℚ)),
      (pairs.map (fun p => p.2.1.id)).Nodup →
      (∀ p ∈ pairs, p.2.1.id ∈ used) →
      ((poly.foldl (pairStep similarity kalshi) (used, pairs)).2.map
          (fun p => p.2.1.id)).Nodup ∧
        ∀ p ∈ (poly.foldl (pairStep similarity kalshi) (used, pairs)).2,
          p.2.1.id ∈ (poly.foldl (pairStep similarity kalshi) (used, pairs)).1 := by
  intro poly
  induction poly with
  | nil => intro used pairs hnd hmem; exact ⟨hnd, hmem⟩
  | cons pm rest ih =>
    intro used pairs hnd hmem
    simp only [List.foldl_cons]
    unfold pairStep
    cases hbest : bestKalshiMatch similarity pm kalshi used with
    | mk bmo bs =>
      cases bmo with
      | none => exact ih used pairs hnd hmem
      | some bm =>
        by_cases hb : 45/100 ≤ bs
        · simp only [if_pos hb]
          have hnotused : bm.id ∉ used :=
            bestKalshiMatch_not_used similarity pm kalshi used bm bs hbest
          refine ih (bm.id :: used) (pairs ++ [(pm, bm, bs)]) ?_ ?_
          · rw [List.map_append, List.nodup_append]
            refine ⟨hnd, by simp, ?_⟩
            intro x hx hx'
            simp only [List.map_cons, List.map_nil, List.mem_singleton] at hx'
            subst hx'
            rcases List.mem_map.mp hx with ⟨p, hp, hpid⟩
            exact hnotused (hpid ▸ hmem p hp)
          · intro p hp
            rcases List.mem_append.mp hp with hp | hp
            · exact List.mem_cons_of_mem _ (hmem p hp)
            · simp only [List.mem_singleton] at hp
              subst hp
              simp
        · simp only [if_neg hb]
          exact ih used pairs hnd hmem

/-! ## Helper lemmas: the big-move fold -/

lemma move_fold_filterMap (ph : PriceHistory) (t : ℚ) :
    ∀ (l : List Market) (acc : List MoveCandidate),
      l.foldl (moveStep ph t) acc = acc ++ l.filterMap (emitMoveCandidate ph t) := by
  intro l
  induction l with
  | nil => intro acc; simp
  | cons m rest ih =>
    intro acc
    simp only [List.foldl_cons]
    rw [ih, List.filterMap_cons]
    cases hl : lookupHist ph m.id with
    | nil =>
      have hstep : moveStep ph t acc m = acc := by
        unfold moveStep; rw [hl]
      have he : emitMoveCandidate ph t m = none := by
        unfold emitMoveCandidate; rw [hl]
      rw [hstep, he]
    | cons h hs =>
      by_cases hd : t ≤ |m.yes_price * 100 - h.price * 100|
      · have hstep : moveStep ph t acc m
            = acc ++ [⟨m, pyRound1 (h.price * 100), pyRound1 (m.yes_price * 100),
                pyRound1 (m.yes_price * 100 - h.price * 100)⟩] := by
          unfold moveStep; rw [hl]; simp [hd]
        have he : emitMoveCandidate ph t m
            = some ⟨m, pyRound1 (h.price * 100), pyRound1 (m.yes_price * 100),
                pyRound1 (m.yes_price * 100 - h.price * 100)⟩ := by
          unfold emitMoveCandidate; rw [hl]; simp [hd]
        rw [hstep, he]
        simp
      · have hstep : moveStep ph t acc m = acc := by
          unfold moveStep; rw [hl]; simp [hd]
        have he : emitMoveCandidate ph t m = none := by
          unfold emitMoveCandidate; rw [hl]; simp [hd]
        rw [hstep, he]

/-! ## Helper lemmas: the correlation moves dict -/

lemma corrMovesDict_fold (ph : PriceHistory) :
    ∀ (all_markets : List Market) (d : List (String × CorrEntry)),
      (d.map Prod.fst ++
        (corrEntriesSpec all_markets ph).map (fun e => e.market.id)).Nodup →
      all_markets.foldl (corrMoveStep ph) d
        = d ++ (corrEntriesSpec all_markets ph).map (fun e => (e.market.id, e)) := by
  intro all_markets
  induction all_markets with
  | nil => intro d _; simp [corrEntriesSpec]
  | cons m rest ih =>
    intro d hnd
    simp only [List.foldl_cons]
    cases hl : lookupHist ph m.id with
    | nil =>
      have hstep : corrMoveStep ph d m = d := by
        unfold corrMoveStep; rw [hl]
      have hspec : corrEntriesSpec (m :: rest) ph = corrEntriesSpec rest ph := by
        simp [corrEntriesSpec, hl]
      rw [hspec] at hnd
      rw [hstep, hspec]
      exact ih d hnd
    | cons h hs =>
      have hstep : corrMoveStep ph d m
          = dictInsert m.id
              ⟨m, m.yes_price * 100, m.yes_price * 100 - h.price * 100⟩ d := by
        unfold corrMoveStep; rw [hl]
      have hspec : corrEntriesSpec (m :: rest) ph
          = ⟨m, m.yes_price * 100, m.yes_price * 100 - h.price * 100⟩ ::
            corrEntriesSpec rest ph := by
        simp [corrEntriesSpec, hl]
      rw [hspec] at hnd
      rw [hstep, hspec]
      simp only [List.map_cons] at hnd
      have hnotin : m.id ∉ d.map Prod.fst := by
        intro hmem
        rcases (List.nodup_append.mp hnd).2.2 hmem with h
        exact h (by simp)
      have hins : dictInsert m.id
          (⟨m, m.yes_price * 100, m.yes_price * 100 - h.price * 100⟩ : CorrEntry) d
          = d ++ [(m.id, ⟨m, m.yes_price * 100, m.yes_price * 100 - h.price * 100⟩)] := by
        unfold dictInsert
        have hany : d.any (fun p => decide (p.1 = m.id)) = false := by
          rw [Bool.eq_false_iff]
          intro hany
          rcases List.any_eq_true.mp hany with ⟨p, hp, hpk⟩
          exact hnotin (List.mem_map.mpr ⟨p, hp, by simpa using hpk⟩)
        rw [hany]
        simp
      rw [hins]
      have hnd2 : ((d ++ [(m.id,
            (⟨m, m.yes_price * 100, m.yes_price * 100 - h.price * 100⟩ : CorrEntry))]).map
              Prod.fst ++
            (corrEntriesSpec rest ph).map (fun e => e.market.id)).Nodup := by
        rw [List.map_append]
        rw [List.append_assoc]
        simpa using hnd
      rw [ih _ hnd2]
      simp

/-! ## Helper lemmas: the per-pair correlation check -/

lemma corrPairCheck_eq_claim (similarity : String → String → ℚ) (t : ℚ)
    (a b : CorrEntry) :
    corrPairCheck similarity t a b = claimAnomalies similarity t a b := by
  unfold corrPairCheck claimAnomalies
  have hiff :
      (hintCorrelated (pyLower a.market.title) (pyLower b.market.title) ||
        decide (4/10 < similarity (pyLower a.market.title) (pyLower b.market.title)))
          = true
        ↔ claimCorrelated similarity a b := by
    simp [hintCorrelated, claimCorrelated, List.any_eq_true, Bool.or_eq_true,
      Bool.and_eq_true, decide_eq_true_iff]
  dsimp only
  by_cases hc : claimCorrelated similarity a b
  · have hb : (hintCorrelated (pyLower a.market.title) (pyLower b.market.title) ||
        decide (4/10 < similarity (pyLower a.market.title)
          (pyLower b.market.title))) = true := hiff.mpr hc
    rw [hb]
    simp [hc]
  · have hb : (hintCorrelated (pyLower a.market.title) (pyLower b.market.title) ||
        decide (4/10 < similarity (pyLower a.market.title)
          (pyLower b.market.title))) = false := by
      rw [Bool.eq_false_iff]
      intro h
      exact hc (hiff.mp h)
    rw [hb]
    simp [hc]

/-! ## Helper lemmas: cooldown dict operations -/

lemma find?_dictInsert_self {β : Type} (d : List (String × β)) (k : String) (v : β) :
    (dictInsert k v d).find? (fun p => decide (p.1 = k)) = some (k, v) := by
  unfold dictInsert
  by_cases hany : d.any (fun p => decide (p.1 = k)) = true
  · rw [if_pos hany]
    induction d with
    | nil => simp at hany
    | cons p t ih =>
      by_cases hp : p.1 = k
      · rw [List.map_cons, if_pos hp, List.find?_cons]
        simp
      · have hany' : t.any (fun p => decide (p.1 = k)) = true := by
          rcases List.any_eq_true.mp hany with ⟨q, hq, hqk⟩
          rcases List.mem_cons.mp hq with hq | hq
          · exact absurd (by simpa [hq] using hqk) hp
          · exact List.any_eq_true.mpr ⟨q, hq, hqk⟩
        rw [List.map_cons, if_neg hp]
        simp only [List.find?_cons, decide_eq_false hp, cond_false]
        exact ih hany'
  · rw [if_neg hany]
    have hnone : d.find? (fun p => decide (p.1 = k)) = none := by
      rw [List.find?_eq_none]
      intro p hp hpk
      exact hany (List.any_eq_true.mpr ⟨p, hp, hpk⟩)
    rw [List.find?_append, hnone]
    simp [List.find?_cons]

lemma lookupTs_dictInsert_self (d : List (String × ℚ)) (k : String) (v : ℚ) :
    lookupTs (dictInsert k v d) k = some v := by
  unfold lookupTs
  rw [find?_dictInsert_self]
  rfl

/-- Generic shape of the three can_alert methods. -/
lemma canFireAux_iff (o : Option ℚ) (now cd : ℚ) :
    (match o with
      | none => true
      | some last => decide (cd < now - last)) = true
      ↔ (o = none ∨ ∃ last, o = some last ∧ cd < now - last) := by
  cases o with
  | none => simp
  | some last => simp

/-! ## Helper lemmas: save trimming -/

lemma takeLastN_length_le {α : Type} (n : ℕ) (l : List α) :
    (takeLastN n l).length ≤ n := by
  unfold takeLastN
  rw [List.length_drop]
  omega

lemma mem_takeLastN {α : Type} {x : α} {n : ℕ} {l : List α}
    (h : x ∈ takeLastN n l) : x ∈ l :=
  List.mem_of_mem_drop h

/-! ## Helper lemmas: the write model -/

lemma runFs_writeChunks (cs : List String) :
    ∀ (g : FsState) (s : String), g FsPath.target = some s →
      runFs g (cs.map (fun c => FsOp.writeChunk .target c)) FsPath.target
        = some (cs.foldl (fun a c => a ++ c) s) := by
  induction cs with
  | nil => intro g s h; simpa [runFs] using h
  | cons c t ih =>
    intro g s h
    simp only [List.map_cons, runFs, List.foldl_cons]
    have hstep : fsStep g (FsOp.writeChunk .target c) FsPath.target = some (s ++ c) := by
      simp [fsStep, h]
    exact ih (fsStep g (FsOp.writeChunk .target c)) (s ++ c) hstep

/-! ## Claim theorems -/

/-- C1: for every Polymarket/Kalshi pair matched with best similarity
score at least the 0.45 acceptance threshold, find_arbitrage_opportunities
emits a gap candidate if and only if the gap of at least the 5-point
threshold is reached (the candidates are exactly the emissions over the
accepted matches, as a permutation — so no cap is applied), and the
returned list is sorted descending by the gap field. -/
theorem C1_gap_detector (similarity : String → String → ℚ)
    (poly kalshi : List Market) :
    (find_arbitrage_opportunities similarity poly kalshi
        ARBITRAGE_THRESHOLD_PCT).Perm
      ((matchedPairs similarity poly kalshi).filterMap
        (emitGapCandidate ARBITRAGE_THRESHOLD_PCT))
    ∧ (find_arbitrage_opportunities similarity poly kalshi
        ARBITRAGE_THRESHOLD_PCT).Pairwise
        (fun a b => b.gap_pct ≤ a.gap_pct) := by
  constructor
  · unfold find_arbitrage_opportunities
    rw [find_arb_unsorted]
    exact List.perm_insertionSort _ _
  · unfold find_arbitrage_opportunities
    haveI : IsTotal ArbOpp (fun a b => b.gap_pct ≤ a.gap_pct) :=
      ⟨fun a b => le_total b.gap_pct a.gap_pct⟩
    haveI : IsTrans ArbOpp (fun a b => b.gap_pct ≤ a.gap_pct) :=
      ⟨fun _ _ _ hab hbc => le_trans hbc hab⟩
    exact List.sorted_insertionSort _ _

/-- C2: find_big_moves emits, for each market with at least one retained
history entry, a candidate exactly when the absolute delta between the
current price and the oldest retained entry reaches the 10-point
threshold; markets with no history contribute nothing, and the list is
sorted descending by the absolute delta field. -/
theorem C2_velocity_detector (all_markets : List Market) (ph : PriceHistory) :
    (find_big_moves all_markets ph BIG_MOVE_THRESHOLD_PCT).Perm
      (all_markets.filterMap (emitMoveCandidate ph BIG_MOVE_THRESHOLD_PCT))
    ∧ (find_big_moves all_markets ph BIG_MOVE_THRESHOLD_PCT).Pairwise
        (fun a b => |b.delta| ≤ |a.delta|) := by
  constructor
  · unfold find_big_moves
    rw [move_fold_filterMap, List.nil_append]
    exact List.perm_insertionSort _ _
  · unfold find_big_moves
    haveI : IsTotal MoveCandidate (fun a b => |b.delta| ≤ |a.delta|) :=
      ⟨fun a b => le_total |b.delta| |a.delta|⟩
    haveI : IsTrans MoveCandidate (fun a b => |b.delta| ≤ |a.delta|) :=
      ⟨fun _ _ _ hab hbc => le_trans hbc hab⟩
    exact List.sorted_insertionSort _ _

/-- C3: over markets with pairwise distinct ids, find_correlation_anomalies
equals the claim-side detector: for every ordered pair of entries with
history, an anomaly is emitted exactly when the pair is correlated (keyword
hint in either order, or similarity above 0.4) and exactly one side reaches
the 10-point move threshold while the other stays strictly below 0.3 times
the threshold; the record names the moving side mover and the other
laggard. -/
theorem C3_correlation_detector (similarity : String → String → ℚ)
    (all_markets : List Market) (ph : PriceHistory)
    (hids : ((corrEntriesSpec all_markets ph).map
      (fun e => e.market.id)).Nodup) :
    find_correlation_anomalies similarity all_markets ph CORRELATION_MOVE_PCT
      = (ordPairs (corrEntriesSpec all_markets ph)).flatMap
          (fun ab => claimAnomalies similarity CORRELATION_MOVE_PCT ab.1 ab.2) := by
  unfold find_correlation_anomalies
  have hdict : corrMovesDict all_markets ph
      = (corrEntriesSpec all_markets ph).map (fun e => (e.market.id, e)) := by
    unfold corrMovesDict
    have h := corrMovesDict_fold ph all_markets [] (by simpa using hids)
    simpa using h
  rw [hdict, List.map_map]
  have hsnd : ((fun p : String × CorrEntry => p.2) ∘ fun e => (e.market.id, e))
      = id := by
    funext e
    rfl
  rw [hsnd, List.map_id]
  have hfun : (fun ab : CorrEntry × CorrEntry =>
      corrPairCheck similarity CORRELATION_MOVE_PCT ab.1 ab.2)
      = fun ab => claimAnomalies similarity CORRELATION_MOVE_PCT ab.1 ab.2 := by
    funext ab
    exact corrPairCheck_eq_claim similarity CORRELATION_MOVE_PCT ab.1 ab.2
  rw [hfun]

/-- A degenerate similarity function used in concrete witnesses: every
comparison scores zero, so only keyword hints can correlate markets. -/
def simZero : String → String → ℚ := fun _ _ => 0

def mWar : Market :=
  { id := "poly_war", title := "Iran war by July", event_title := ""
  , subtitle := "", yes_price := 62/100, url := "" }

def mStrike : Market :=
  { id := "kalshi_strike", title := "Iran strike on Israel", event_title := ""
  , subtitle := "", yes_price := 50/100, url := "" }

def phC3 : PriceHistory :=
  [("poly_war", [⟨50/100, 0⟩]), ("kalshi_strike", [⟨49/100, 0⟩])]

/-- Witness for C3 at a concrete keyword-linked pair with history. -/
theorem C3_correlation_witness :
    ((corrEntriesSpec [mWar, mStrike] phC3).map
      (fun e => e.market.id)).Nodup
    ∧ find_correlation_anomalies simZero [mWar, mStrike] phC3
          CORRELATION_MOVE_PCT
        = (ordPairs (corrEntriesSpec [mWar, mStrike] phC3)).flatMap
            (fun ab => claimAnomalies simZero CORRELATION_MOVE_PCT ab.1 ab.2) :=
  ⟨by decide, C3_correlation_detector simZero [mWar, mStrike] phC3 (by decide)⟩

/-- C9: within one invocation of the greedy matcher of
find_arbitrage_opportunities, the Kalshi markets accepted as best matches
at or above the 0.45 threshold have pairwise distinct ids: no Kalshi
market is consumed by two different Polymarket markets. -/
theorem C9_kalshi_consumed_once (similarity : String → String → ℚ)
    (poly kalshi : List Market) :
    ((matchedPairs similarity poly kalshi).map (fun p => p.2.1.id)).Nodup := by
  unfold matchedPairs
  exact (pair_fold_nodup similarity kalshi poly [] [] (by simp) (by simp)).1

/-- C4: for each of the three alert classes, the can-fire check is true
exactly when no record exists for the key or now minus the recorded time
exceeds the cooldown; it is true for an unrecorded key, false immediately
after the matching mark call when the cooldown is positive, and true again
at any time beyond the recorded time plus the cooldown. -/
theorem C4_cooldown (st : BotStateM) (key : String) (now now2 cd : ℚ)
    (hcd : 0 < cd) (hrec : now + cd < now2) :
    ((can_alert_arb st key now cd = true ↔
        (lookupTs st.sent_arb_alerts key = none ∨
         ∃ last, lookupTs st.sent_arb_alerts key = some last ∧ cd < now - last))
      ∧ (lookupTs st.sent_arb_alerts key = none →
          can_alert_arb st key now cd = true)
      ∧ can_alert_arb (mark_arb_alert st key now) key now cd = false
      ∧ can_alert_arb (mark_arb_alert st key now) key now2 cd = true)
    ∧ ((can_alert_corr st key now cd = true ↔
        (lookupTs st.sent_corr_alerts key = none ∨
         ∃ last, lookupTs st.sent_corr_alerts key = some last ∧ cd < now - last))
      ∧ (lookupTs st.sent_corr_alerts key = none →
          can_alert_corr st key now cd = true)
      ∧ can_alert_corr (mark_corr_alert st key now) key now cd = false
      ∧ can_alert_corr (mark_corr_alert st key now) key now2 cd = true)
    ∧ ((can_alert_move st key now cd = true ↔
        (lookupTs st.sent_move_alerts key = none ∨
         ∃ last, lookupTs st.sent_move_alerts key = some last ∧ cd < now - last))
      ∧ (lookupTs st.sent_move_alerts key = none →
          can_alert_move st key now cd = true)
      ∧ can_alert_move (mark_move_alert st key now) key now cd = false
      ∧ can_alert_move (mark_move_alert st key now) key now2 cd = true) := by
  have hafter : (decide (cd < now - now) : Bool) = false := by
    rw [sub_self]
    exact decide_eq_false (not_lt.mpr hcd.le)
  have hlater : (decide (cd < now2 - now) : Bool) = true :=
    decide_eq_true (lt_sub_iff_add_lt.mpr (by linarith))
  refine ⟨⟨?_, ?_, ?_, ?_⟩, ⟨?_, ?_, ?_, ?_⟩, ⟨?_, ?_, ?_, ?_⟩⟩
  · exact canFireAux_iff (lookupTs st.sent_arb_alerts key) now cd
  · intro h; unfold can_alert_arb; rw [h]
  · unfold can_alert_arb mark_arb_alert
    simp only [lookupTs_dictInsert_self]
    exact hafter
  · unfold can_alert_arb mark_arb_alert
    simp only [lookupTs_dictInsert_self]
    exact hlater
  · exact canFireAux_iff (lookupTs st.sent_corr_alerts key) now cd
  · intro h; unfold can_alert_corr; rw [h]
  · unfold can_alert_corr mark_corr_alert
    simp only [lookupTs_dictInsert_self]
    exact hafter
  · unfold can_alert_corr mark_corr_alert
    simp only [lookupTs_dictInsert_self]
    exact hlater
  · exact canFireAux_iff (lookupTs st.sent_move_alerts key) now cd
  · intro h; unfold can_alert_move; rw [h]
  · unfold can_alert_move mark_move_alert
    simp only [lookupTs_dictInsert_self]
    exact hafter
  · unfold can_alert_move mark_move_alert
    simp only [lookupTs_dictInsert_self]
    exact hlater

/-- The zero-valued in-memory state, as State.__init__ leaves it. -/
def emptyState : BotStateM := ⟨[], [], [], [], [], none, 0, "", []⟩

/-- Witness for C4 with the reference 30-minute arbitrage cooldown: a
fresh key fires, is blocked immediately after marking, and fires again 31
minutes later. -/
theorem C4_cooldown_witness :
    can_alert_arb emptyState "k" 0 30 = true
    ∧ can_alert_arb (mark_arb_alert emptyState "k" 0) "k" 0 30 = false
    ∧ can_alert_arb (mark_arb_alert emptyState "k" 0) "k" 31 30 = true := by
  have h := C4_cooldown emptyState "k" 0 31 30 (by norm_num) (by norm_num)
  exact ⟨h.1.2.1 rfl, h.1.2.2.1, h.1.2.2.2⟩

/-! Concrete arbitrage candidates for the alert-key evaluation.  oppA and
oppB describe two different market pairings (different urls) whose
Polymarket titles agree on the first 30 characters; oppC is the same
pairing as oppA with a slightly edited title. -/

def oppA : ArbOpp :=
  { name := "Will Iran strike Israel before July 2026 in a major escalation"
  , poly_price := 62, kalshi_price := 55, gap_pct := 7
  , poly_url := "https://polymarket.com/event/a"
  , kalshi_url := "https://kalshi.com/markets/b"
  , match_score := 9/10 }

def oppB : ArbOpp :=
  { oppA with
    name := "Will Iran strike Israel before August 2026 at any point"
  , poly_url := "https://polymarket.com/event/x"
  , kalshi_url := "https://kalshi.com/markets/y" }

def oppC : ArbOpp :=
  { oppA with name := "Will Iran  strike Israel before July 2026 in a major escalation" }

/-- C5: evaluation of the alert keys market_scan derives.  The arbitrage
key is the first 30 characters of the candidate title, so two different
pairings with similar titles collide and a retitled market changes the key
of the same pairing; the correlation key depends on which side moved, so
the same unordered pair yields two different keys. -/
theorem C5_alert_key_evaluation :
    market_scan_corr_key "poly_war" "kalshi_strike"
      ≠ market_scan_corr_key "kalshi_strike" "poly_war"
    ∧ market_scan_arb_key oppA = market_scan_arb_key oppB
    ∧ oppA.kalshi_url ≠ oppB.kalshi_url
    ∧ market_scan_arb_key oppA = "Will Iran strike Israel before"
    ∧ market_scan_arb_key oppC ≠ market_scan_arb_key oppA := by
  refine ⟨by decide, by decide, by decide, by decide, by decide⟩

/-- A file system holding a previously committed state document. -/
def committedFs : FsState := fun p =>
  match p with
  | .target => some "OLDSTATE"
  | .temp => none

/-- C6 counterexample: the save methods open the state file itself with a
truncating write.  Crashing after the very first operation of a save of
the document NEWSTATE leaves the target file empty — neither the committed
OLDSTATE nor the new document — refuting crash atomicity. -/
theorem C6_save_not_atomic_counterexample :
    crashFs committedFs (State_save_write_ops ["NEW", "STATE"]) 1 FsPath.target
      = some ""
    ∧ crashFs committedFs (State_save_write_ops ["NEW", "STATE"]) 1 FsPath.target
        ≠ some "OLDSTATE"
    ∧ crashFs committedFs (State_save_write_ops ["NEW", "STATE"]) 1 FsPath.target
        ≠ some "NEWSTATE"
    ∧ runFs committedFs (State_save_write_ops ["NEW", "STATE"]) FsPath.target
        = some "NEWSTATE" := by
  refine ⟨rfl, by decide, by decide, rfl⟩

/-- C6 amended: a crash before the save starts leaves the old file intact,
but once the truncating open has run, the visible target content after any
crash point is exactly the prefix of the new document written so far —
independently of the previously committed content, which is already
lost. -/
theorem C6_amended_truncate_in_place (fs : FsState) (chunks : List String) (j : ℕ) :
    crashFs fs (State_save_write_ops chunks) 0 FsPath.target = fs FsPath.target
    ∧ crashFs fs (State_save_write_ops chunks) (j + 1) FsPath.target
        = some (joinChunks (chunks.take j)) := by
  constructor
  · rfl
  · unfold crashFs State_save_write_ops
    rw [List.take_succ_cons]
    have hmt : (chunks.map (fun c => FsOp.writeChunk .target c)).take j
        = (chunks.take j).map (fun c => FsOp.writeChunk .target c) := by
      rw [List.map_take]
    rw [hmt]
    show runFs fs (FsOp.truncOpen .target ::
      (chunks.take j).map (fun c => FsOp.writeChunk .target c)) FsPath.target
        = some (joinChunks (chunks.take j))
    unfold runFs
    rw [List.foldl_cons]
    have hbase : fsStep fs (FsOp.truncOpen .target) FsPath.target = some "" := by
      simp [fsStep]
    exact runFs_writeChunks (chunks.take j) _ "" hbase

/-- C7 counterexample: a state file holding the valid JSON document 42
makes BotState._load of src/state.py raise out of the loader (dict.update
of a number raises TypeError, which its except clause does not catch); and
a JSON object with an ill-typed scan_count makes State._load of
src/main.py keep the ill-typed value rather than fall back to the
zero-valued state. -/
theorem C7_loader_counterexample :
    BotState_load (.content (.num 42)) = .error ()
    ∧ (State_load (.content (.obj [("scan_count", .str "x")]))).scan_count
        = .str "x"
    ∧ Json.str "x" ≠ Json.num 0 := by
  refine ⟨rfl, rfl, ?_⟩
  intro h
  exact Json.noConfusion h

/-- C7 amended: State._load of src/main.py never propagates an error — a
missing file, an unreadable file, an undecodable file and every non-object
JSON document all leave the zero-valued defaults, while a JSON object is
accepted field by field with no validation.  BotState._load of
src/state.py falls back to its defaults only on decode and OS errors and
propagates the error raised on a document whose top level is a number,
null or a boolean. -/
theorem C7_amended_loader (q : ℚ) (b : Bool) (s : String) (l : List Json)
    (kvs : List (String × Json)) :
    State_load .noFile = defaultRawState
    ∧ State_load .osError = defaultRawState
    ∧ State_load .badJson = defaultRawState
    ∧ State_load (.content .null) = defaultRawState
    ∧ State_load (.content (.num q)) = defaultRawState
    ∧ State_load (.content (.jbool b)) = defaultRawState
    ∧ State_load (.content (.str s)) = defaultRawState
    ∧ State_load (.content (.arr l)) = defaultRawState
    ∧ (State_load (.content (.obj kvs))).scan_count
        = (objLookup kvs "scan_count").getD (.num 0)
    ∧ BotState_load .noFile = .ok defaultBotDict
    ∧ BotState_load .osError = .ok defaultBotDict
    ∧ BotState_load .badJson = .ok defaultBotDict
    ∧ BotState_load (.content (.num q)) = .error ()
    ∧ BotState_load (.content .null) = .error ()
    ∧ BotState_load (.content (.jbool b)) = .error () :=
  ⟨rfl, rfl, rfl, rfl, rfl, rfl, rfl, rfl, rfl, rfl, rfl, rfl, rfl, rfl, rfl⟩

/-- C8 counterexample: the normalization find_arbitrage_opportunities
applies to primary titles is lower-plus-strip, which differs from the
spec-described normalizer on a title with a leading auxiliary and a
trailing question mark; and the subtitle side of the alternate comparison
is only lowercased, differing from the primary-title normalization on a
subtitle with surrounding whitespace — so the claimed rules do not hold
and the treatment is not identical on both sides. -/
theorem C8_normalizer_counterexample :
    arbNormTitle "Will Iran strike?" = "will iran strike?"
    ∧ specNormalize "Will Iran strike?" = "iran strike"
    ∧ arbNormTitle "Will Iran strike?" ≠ specNormalize "Will Iran strike?"
    ∧ pyLower " Strike Iran " = " strike iran "
    ∧ arbNormTitle " Strike Iran " = "strike iran"
    ∧ pyLower " Strike Iran " ≠ arbNormTitle " Strike Iran " := by
  refine ⟨by decide, by decide, by decide, by decide, by decide, by decide⟩

/-- C8 amended: the normalization actually applied lowercases the title
and strips surrounding whitespace on the two primary titles, while the
alternate fields (Kalshi subtitle, Polymarket event title) are only
lowercased; no auxiliary word, question mark or internal whitespace run is
touched, as the retained double space, leading auxiliary and question mark
of the concrete evaluation shows. -/
theorem C8_amended_normalizer (similarity : String → String → ℚ)
    (pm km : Market) :
    (km.subtitle = "" → pm.event_title = "" →
      marketScore similarity pm km
        = similarity (pyStrip (pyLower pm.title)) (pyStrip (pyLower km.title)))
    ∧ (km.subtitle ≠ "" → pm.event_title = "" →
      marketScore similarity pm km
        = max (similarity (pyStrip (pyLower pm.title)) (pyStrip (pyLower km.title)))
            (similarity (pyStrip (pyLower pm.title)) (pyLower km.subtitle)))
    ∧ arbNormTitle "Will  Iran strike? " = "will  iran strike?" := by
  refine ⟨?_, ?_, by decide⟩
  · intro hsub hev
    unfold marketScore arbNormTitle
    dsimp only
    rw [if_pos hsub, if_pos hev]
  · intro hsub hev
    unfold marketScore arbNormTitle
    dsimp only
    rw [if_neg hsub, if_pos hev]

def pmW : Market :=
  { id := "p", title := "Will Iran strike?", event_title := ""
  , subtitle := "", yes_price := 1/2, url := "" }

def kmW : Market :=
  { id := "k", title := "Iran strike before 2027", event_title := ""
  , subtitle := "", yes_price := 1/2, url := "" }

/-- Witness for the amended normalization claim at a concrete pair with no
alternate fields. -/
theorem C8_amended_normalizer_witness :
    marketScore simZero pmW kmW
      = simZero (pyStrip (pyLower pmW.title)) (pyStrip (pyLower kmW.title)) :=
  (C8_amended_normalizer simZero pmW kmW).1 rfl rfl

set_option maxRecDepth 4096 in
/-- C10: State.save leaves every in-memory field exactly as it was — the
state component it returns is the input state, so the detectors keep
seeing the untrimmed history — while the written document holds the
trimmed and capped history (only entries inside the 25-hour window, at
most 500 per market), the seen-news list capped at 1000, the topics list
capped at 50, and the cooldown maps, scan count and knowledge base
unchanged. -/
theorem C10_save_frame (st : BotStateM) (now : ℚ) (ms : List Market) (t : ℚ) :
    (State_save st now).1 = st
    ∧ ((State_save st now).2.price_history.all
        (fun p => decide (p.2.length ≤ HISTORY_CAP) &&
          p.2.all (fun e => decide (now - RETENTION_HOURS < e.ts)))) = true
    ∧ (State_save st now).2.seen_news.length ≤ 1000
    ∧ (State_save st now).2.sent_topics.length ≤ 50
    ∧ (State_save st now).2.sent_arb_alerts = st.sent_arb_alerts
    ∧ (State_save st now).2.sent_corr_alerts = st.sent_corr_alerts
    ∧ (State_save st now).2.sent_move_alerts = st.sent_move_alerts
    ∧ (State_save st now).2.scan_count = st.scan_count
    ∧ (State_save st now).2.knowledge_base = st.knowledge_base
    ∧ find_big_moves ms (State_save st now).1.price_history t
        = find_big_moves ms st.price_history t := by
  refine ⟨rfl, ?_, ?_, ?_, rfl, rfl, rfl, rfl, rfl, rfl⟩
  · rw [List.all_eq_true]
    intro p hp
    have hp' : p ∈ trimHistory now st.price_history := hp
    rcases List.mem_filterMap.mp hp' with ⟨q, _, hq⟩
    dsimp only at hq
    by_cases hemp : (q.2.filter
        (fun e => decide (now - RETENTION_HOURS < e.ts))).isEmpty = true
    · rw [if_pos hemp] at hq
      exact absurd hq (by simp)
    · rw [if_neg hemp, Option.some_inj] at hq
      subst hq
      rw [Bool.and_eq_true]
      refine ⟨decide_eq_true (takeLastN_length_le _ _), ?_⟩
      rw [List.all_eq_true]
      intro e he
      exact (List.mem_filter.mp (mem_takeLastN he)).2
  · exact takeLastN_length_le _ _
  · exact takeLastN_length_le _ _

end IranBot
